import Mathlib

/-!
Verification development for the TeamSync Polyglot meeting-translation
workflow.  The definitions below are a shallow embedding of the server
code: the drizzle tables (src/drizzle/schema.ts), the persistence layer
(src/server/db.ts), the translation and OCR adapters
(src/server/translation.ts, src/server/ocr.ts), the summarization module
(src/server/summarization.ts) and the tRPC router procedures
(src/server/routers.ts).  Remote AI capabilities, blob storage and token
generation are modelled as oracles (the `Providers` structure); the
relational store is modelled as an explicit state value threaded through
the operations.  JSON values flowing through the untyped
JSON.parse/JSON.stringify boundary are modelled by an explicit `Json`
inductive together with JavaScript-style truthiness, property access and
string coercion, so that the dynamic behaviour of the TypeScript code is
captured rather than its static type annotations.
-/

namespace TeamSync

/-- Json models a JavaScript value produced by JSON.parse or consumed by
JSON.stringify.  Numbers are modelled as integers (no claim depends on
float semantics).  Object field lists represent parsed objects, whose
keys are distinct. -/
inductive Json where
  | null
  | bool (b : Bool)
  | num (n : Int)
  | str (s : String)
  | arr (elems : List Json)
  | obj (fields : List (String × Json))

/-- jsTruthy models JavaScript truthiness for parsed JSON values:
null, false, 0 and the empty string are falsy; arrays and objects are
always truthy. -/
def jsTruthy : Json → Bool
  | .null => false
  | .bool b => b
  | .num n => n != 0
  | .str s => s != ""
  | .arr _ => true
  | .obj _ => true

/-- jsField models property lookup `v[k]` on a parsed JSON value:
`none` stands for the JavaScript `undefined` result, obtained both for a
missing key and for property access on a non-object primitive. -/
def jsField : Json → String → Option Json
  | .obj fields, k => (fields.find? (fun p => p.1 == k)).map (fun p => p.2)
  | _, _ => none

/-- jsLor models the JavaScript expression `x || d` applied to a
property-lookup result: the value itself when truthy, the default
otherwise (a missing property, i.e. `undefined`, is falsy). -/
def jsLor (x : Option Json) (d : Json) : Json :=
  match x with
  | some j => if jsTruthy j then j else d
  | none => d

/-- asArray models `Array.isArray(x) ? some elems : none` for a
property-lookup result. -/
def asArray : Option Json → Option (List Json)
  | some (.arr elems) => some elems
  | _ => none

/-- jsLengthProp models reading the `length` property of a value that is
known not to be null or undefined: defined for arrays and strings (and
for objects carrying an explicit length member), undefined otherwise. -/
def jsLengthProp : Json → Option Json
  | .arr elems => some (.num elems.length)
  | .str s => some (.num s.length)
  | .obj fields => (fields.find? (fun p => p.1 == "length")).map (fun p => p.2)
  | _ => none

/-- jsGtZero models the comparison `x > 0` where `x` is the result of a
length read: true only for a numeric value greater than zero (the
JavaScript comparison `undefined > 0` is false; ToNumber coercion of
non-numeric length values is not modelled, no reachable value has
one). -/
def jsGtZero : Option Json → Bool
  | some (.num n) => 0 < n
  | _ => false

/-- isJsonString tests whether a JSON value is a string. -/
def isJsonString : Json → Bool
  | .str _ => true
  | _ => false

mutual
/-- jsCoerceString models the JavaScript string coercion String(v) used
by template literals: null prints as "null", arrays join their coerced
elements with commas, objects print as "[object Object]". -/
def jsCoerceString : Json → String
  | .null => "null"
  | .bool b => if b then "true" else "false"
  | .num n => toString n
  | .str s => s
  | .arr elems => String.intercalate "," (jsCoerceElems elems)
  | .obj _ => "[object Object]"

/-- jsCoerceElems coerces array elements the way Array.prototype.join
does: a null element renders as the empty string. -/
def jsCoerceElems : List Json → List String
  | [] => []
  | x :: xs =>
      (match x with
       | .null => ""
       | y => jsCoerceString y) :: jsCoerceElems xs
end

/-- jsJoinRender models how Array.prototype.join renders a value pushed
into the sections array: undefined and null render as the empty string,
anything else by string coercion. -/
def jsJoinRender : Option Json → String
  | none => ""
  | some .null => ""
  | some j => jsCoerceString j

/-- lowerChar lowercases one ASCII character, as
String.prototype.toLowerCase does on ASCII input. -/
def lowerChar (c : Char) : Char :=
  if 'A' ≤ c ∧ c ≤ 'Z' then Char.ofNat (c.toNat + 32) else c

/-- upperChar uppercases one ASCII character, as
String.prototype.toUpperCase does on ASCII input. -/
def upperChar (c : Char) : Char :=
  if 'a' ≤ c ∧ c ≤ 'z' then Char.ofNat (c.toNat - 32) else c

/-- jsToLower models String.prototype.toLowerCase (ASCII range; the
Unicode case table is not modelled). -/
def jsToLower (s : String) : String := ⟨s.data.map lowerChar⟩

/-- jsToUpper models String.prototype.toUpperCase (ASCII range). -/
def jsToUpper (s : String) : String := ⟨s.data.map upperChar⟩

/-- wsChar recognises the common whitespace characters removed by
String.prototype.trim. -/
def wsChar (c : Char) : Bool := c = ' ' ∨ c = '\t' ∨ c = '\n' ∨ c = '\r'

/-- jsTrim models String.prototype.trim: leading and trailing
whitespace removed. -/
def jsTrim (s : String) : String :=
  ⟨((s.data.dropWhile wsChar).reverse.dropWhile wsChar).reverse⟩

/-! ## Data model (src/drizzle/schema.ts)

Timestamp columns (createdAt, updatedAt) are not modelled: no claim
mentions them and no workflow logic reads them. -/

/-- Meeting mirrors one row of the `meetings` table. -/
structure Meeting where
  id : Nat
  userId : Nat
  title : String
  originalContent : String
  detectedLanguage : Option String
  imageUrl : Option String
  imageKey : Option String

/-- Translation mirrors one row of the `translations` table.  The
nullable `actionItems` text column stores serialized JSON written by
JSON.stringify and read back by JSON.parse; it is modelled as the parsed
`Json` value (the stringify/parse round trip at this boundary).  The
`summary` column holds the dynamic value the workflow wrote there. -/
structure Translation where
  id : Nat
  meetingId : Nat
  targetLanguage : String
  translatedContent : String
  summary : Json
  actionItems : Option Json

/-- InsertTranslation carries the column values of a translation insert,
before the auto-increment key is assigned. -/
structure InsertTranslation where
  meetingId : Nat
  targetLanguage : String
  translatedContent : String
  summary : Json
  actionItems : Option Json

/-- InsertMeeting carries the column values of a meeting insert, before
the auto-increment key is assigned. -/
structure InsertMeeting where
  userId : Nat
  title : String
  originalContent : String
  detectedLanguage : Option String
  imageUrl : Option String
  imageKey : Option String

/-- DbState is the mutable relational store: the two core tables in
insertion order plus the auto-increment counters.  The store is
modelled as available (the lazy getDb connection of src/server/db.ts is
assumed to succeed; its degraded offline branches are environment
configuration, not workflow logic). -/
structure DbState where
  meetings : List Meeting
  translations : List Translation
  nextMeetingId : Nat
  nextTranslationId : Nat

/-! ## Persistence layer (src/server/db.ts) -/

/-- createMeeting inserts a meeting row and returns the assigned
insertId, as db.createMeeting does. -/
def createMeeting (s : DbState) (m : InsertMeeting) : Nat × DbState :=
  let row : Meeting :=
    { id := s.nextMeetingId
      userId := m.userId
      title := m.title
      originalContent := m.originalContent
      detectedLanguage := m.detectedLanguage
      imageUrl := m.imageUrl
      imageKey := m.imageKey }
  (row.id, { s with meetings := s.meetings ++ [row], nextMeetingId := s.nextMeetingId + 1 })

/-- getMeetingById selects the first meeting row with the given id
(select … where eq(meetings.id, id) limit 1). -/
def getMeetingById (s : DbState) (id : Nat) : Option Meeting :=
  s.meetings.find? (fun m => m.id == id)

/-- deleteMeeting removes the meeting row; the translations whose
meetingId references it are removed as well, per the schema foreign key
`onDelete: "cascade"` on translations.meetingId
(src/drizzle/schema.ts line 51). -/
def deleteMeeting (s : DbState) (id : Nat) : DbState :=
  { s with
    meetings := s.meetings.filter (fun m => m.id != id)
    translations := s.translations.filter (fun t => t.meetingId != id) }

/-- createTranslation inserts a translation row and returns the full row
(db.createTranslation returns the assigned insertId; the row is returned
here so theorems can speak about the stored columns). -/
def createTranslation (s : DbState) (t : InsertTranslation) : Translation × DbState :=
  let row : Translation :=
    { id := s.nextTranslationId
      meetingId := t.meetingId
      targetLanguage := t.targetLanguage
      translatedContent := t.translatedContent
      summary := t.summary
      actionItems := t.actionItems }
  (row, { s with translations := s.translations ++ [row],
                 nextTranslationId := s.nextTranslationId + 1 })

/-- getTranslation selects the first translation row matching both
meetingId and targetLanguage (select … where and(eq, eq) limit 1). -/
def getTranslation (s : DbState) (meetingId : Nat) (targetLanguage : String) : Option Translation :=
  s.translations.find? (fun t => t.meetingId == meetingId && t.targetLanguage == targetLanguage)

/-! ## Remote capability oracles

The Gemini calls (generateText), the blob store and the nanoid token
generator are external effects.  They are modelled as deterministic
oracles supplied to each operation; an `Except.error` models a thrown
exception at that call site.  Responses that the code feeds to
JSON.parse are modelled by `JsonText`, which carries the raw response
text together with its parse outcome. -/

/-- JsonText is a remote response text together with the outcome of
JSON.parse on it: `parsed raw v` means the text parses to the value `v`,
`unparsed raw` means JSON.parse throws on it. -/
inductive JsonText where
  | parsed (raw : String) (value : Json)
  | unparsed (raw : String)

/-- Providers bundles the external effect oracles:
* translateText — outcome of GeminiTranslationAdapter.translate given
  (content, targetLanguage, sourceLanguage?);
* detectText — raw response text of the generateText call inside
  GeminiTranslationAdapter.detectLanguage;
* summarizeText — response of the generateText call inside
  summarizeMeetingNotes, with its JSON parse outcome;
* ocrText — response of the generateText call inside
  extractAndDetectLanguage, keyed by the image url;
* storagePut — outcome of the blob-store put given (fileKey, mimeType)
  (the byte payload is opaque and not modelled);
* nanoid — the fresh token used to build the storage key. -/
structure Providers where
  translateText : String → String → Option String → Except String String
  detectText : String → Except String String
  summarizeText : String → Except String JsonText
  ocrText : String → Except String JsonText
  storagePut : String → String → Except String String
  nanoid : String

/-! ## Translation adapter (src/server/translation.ts) -/

/-- translateMeetingNotes forwards to the active adapter
(GeminiTranslationAdapter.translate), whose remote outcome is the
oracle. -/
def translateMeetingNotes (P : Providers) (content : String) (targetLanguage : String)
    (sourceLanguage : Option String) : Except String String :=
  P.translateText content targetLanguage sourceLanguage

/-- detectMeetingLanguage forwards to
GeminiTranslationAdapter.detectLanguage: the raw response text is
trimmed and lowercased; a thrown remote error propagates. -/
def detectMeetingLanguage (P : Providers) (content : String) : Except String String :=
  (P.detectText content).map (fun t => jsToLower (jsTrim t))

/-! ## Summarization (src/server/summarization.ts) -/

/-- MeetingSummary is the object built by summarizeMeetingNotes.  The
TypeScript interface declares `summary : string`, but the value actually
assigned is `parsed.summary || "No summary available"` where `parsed`
comes from JSON.parse, so the dynamic value can be any truthy JSON
value; the field is therefore modelled as `Json`.  The two item lists
are guarded by Array.isArray and really are arrays. -/
structure MeetingSummary where
  summary : Json
  actionItems : List Json
  keyPoints : List Json
  participants : Option (List Json)
  decisions : Option (List Json)

/-- summarizeMeetingNotes calls the summarization capability on the
content and parses the response: on parse success the structured fields
are extracted with truthiness/Array.isArray guards, on parse failure the
raw text becomes the summary with empty item lists.  A thrown remote
error propagates. -/
def summarizeMeetingNotes (P : Providers) (content : String) : Except String MeetingSummary :=
  (P.summarizeText content).map fun
    | .parsed _ v =>
        { summary := jsLor (jsField v "summary") (.str "No summary available")
          actionItems := (asArray (jsField v "actionItems")).getD []
          keyPoints := (asArray (jsField v "keyPoints")).getD []
          participants := asArray (jsField v "participants")
          decisions := asArray (jsField v "decisions") }
    | .unparsed raw =>
        { summary := .str raw
          actionItems := []
          keyPoints := []
          participants := none
          decisions := none }

/-- summaryFields lists the serialized object fields of a
MeetingSummary in object literal order, the optional fields dropped
when undefined (as JSON.stringify drops them). -/
def summaryFields (ms : MeetingSummary) : List (String × Json) :=
  ("summary", ms.summary)
    :: ("actionItems", .arr ms.actionItems)
    :: ("keyPoints", .arr ms.keyPoints)
    :: ((match ms.participants with
         | some l => [("participants", Json.arr l)]
         | none => [])
      ++ (match ms.decisions with
          | some l => [("decisions", Json.arr l)]
          | none => []))

/-- jsonOfSummary is the JSON.stringify image of a MeetingSummary (as
the value the serialized text parses back to). -/
def jsonOfSummary (ms : MeetingSummary) : Json :=
  .obj (summaryFields ms)

/-! ## OCR (src/server/ocr.ts) -/

/-- OCRResult mirrors the result of extractAndDetectLanguage.  The
extracted text is kept as the dynamic JSON value `parsed.text || ""`;
the detected language is the string stored into the varchar column (the
unused confidence field is omitted). -/
structure OCRResult where
  extractedText : Json
  detectedLanguage : Option String

/-- extractAndDetectLanguage calls the OCR capability on the image url
and parses the response: on parse success the text and language fields
are extracted with `|| ""` and `|| "unknown"` defaults, on parse failure
the whole trimmed response is treated as the extracted text with no
detected language.  A thrown remote error propagates. -/
def extractAndDetectLanguage (P : Providers) (imageUrl : String) : Except String OCRResult :=
  (P.ocrText imageUrl).map fun
    | .parsed _ v =>
        { extractedText := jsLor (jsField v "text") (.str "")
          detectedLanguage :=
            some (jsCoerceString (jsLor (jsField v "language") (.str "unknown"))) }
    | .unparsed raw =>
        { extractedText := .str (jsTrim raw)
          detectedLanguage := none }

/-- ImgValidationError distinguishes the two rejection reasons of
validateImageForOCR, carrying the offending value each message
reports. -/
inductive ImgValidationError where
  | tooLarge (fileSize : Int)
  | unsupportedFormat (mimeType : String)

/-- imageSizeLimit is the fixed 16 MiB upload ceiling. -/
def imageSizeLimit : Int := 16 * 1024 * 1024

/-- supportedImageFormats is the fixed MIME allow-list of
validateImageForOCR. -/
def supportedImageFormats : List String :=
  ["image/jpeg", "image/jpg", "image/png", "image/webp", "image/gif"]

/-- validateImageForOCR checks the declared size against the 16 MiB
limit and then the lowercased MIME type against the allow-list;
`none` is the `{ valid: true }` result. -/
def validateImageForOCR (fileSize : Int) (mimeType : String) : Option ImgValidationError :=
  if fileSize > imageSizeLimit then some (.tooLarge fileSize)
  else if !(supportedImageFormats.contains (jsToLower mimeType)) then
    some (.unsupportedFormat mimeType)
  else none

/-- imgErrorMessage renders the validation error surfaced to the caller.
The format message is verbatim; the size message renders the raw byte
count where the source formats megabytes with two decimals (the numeric
rendering is not part of any claim). -/
def imgErrorMessage : ImgValidationError → String
  | .tooLarge n =>
      "Image too large. Maximum size is 16MB, got " ++ toString n ++ " bytes"
  | .unsupportedFormat m =>
      "Unsupported image format: " ++ m ++ ". Supported formats: JPEG, PNG, WebP, GIF"

/-! ## Export formatting (src/server/summarization.ts) -/

/-- joinNl models Array.prototype.join("\n") on the sections array. -/
def joinNl : List String → String
  | [] => ""
  | [x] => x
  | x :: xs => x ++ "\n" ++ joinNl xs

/-- guardedListSection renders one optional bulleted section of the
export document, following the source guard
`value && value.length > 0` and then `value.forEach`: skipped when the
read property is undefined, falsy, or has no positive numeric length;
a thrown TypeError when forEach is applied to a non-array. -/
def guardedListSection (heading : String) (v : Option Json) : Except String (List String) :=
  match v with
  | some j =>
      if jsTruthy j && jsGtZero (jsLengthProp j) then
        match j with
        | .arr items =>
            Except.ok (heading :: items.map (fun p => "- " ++ jsCoerceString p) ++ [""])
        | _ => Except.error "TypeError: forEach is not a function"
      else Except.ok []
  | none => Except.ok []

/-- lengthPropRead models the unguarded read `value.length` of the
source: a TypeError when the value is undefined or null, the length
property otherwise. -/
def lengthPropRead (v : Option Json) : Except String (Option Json) :=
  match v with
  | none => Except.error "TypeError: Cannot read properties of undefined"
  | some .null => Except.error "TypeError: Cannot read properties of null"
  | some j => Except.ok (jsLengthProp j)

/-- numberedSection renders one mandatory numbered section of the
export document: the unguarded `value.length > 0` read, then forEach
with a 1-based index. -/
def numberedSection (heading : String) (v : Option Json) : Except String (List String) :=
  match lengthPropRead v with
  | .error e => .error e
  | .ok len =>
    if jsGtZero len then
      match v with
      | some (.arr items) =>
          Except.ok (heading
            :: items.enum.map (fun p => toString (p.1 + 1) ++ ". " ++ jsCoerceString p.2)
            ++ [""])
      | _ => Except.error "TypeError: forEach is not a function"
    else Except.ok []

/-- bulletedSection renders one mandatory bulleted section of the
export document: the unguarded `value.length > 0` read, then
forEach. -/
def bulletedSection (heading : String) (v : Option Json) : Except String (List String) :=
  match lengthPropRead v with
  | .error e => .error e
  | .ok len =>
    if jsGtZero len then
      match v with
      | some (.arr items) =>
          Except.ok (heading :: items.map (fun p => "- " ++ jsCoerceString p) ++ [""])
      | _ => Except.error "TypeError: forEach is not a function"
    else Except.ok []

/-- exportTailSections is the fixed tail of the sections array: the
separator, the fenced original content and the fenced translated
content, in that order. -/
def exportTailSections (originalContent translatedContent : String) : List String :=
  ["---", "", "## Original Content", "```", originalContent, "```", "",
   "## Translated Content", "```", translatedContent, "```"]

/-- exportTail is the rendered fixed tail of the export document. -/
def exportTail (originalContent translatedContent : String) : String :=
  joinNl (exportTailSections originalContent translatedContent)

/-- formatSummaryForExport renders the export document.  The summary
argument is the value JSON.parse returned, so every property access
follows JavaScript semantics: reading a property of null throws, a
length read on undefined or null throws, forEach on a non-array throws;
those thrown TypeErrors are the Except.error results.  The `now`
argument stands for new Date().toLocaleString(). -/
def formatSummaryForExport (originalContent translatedContent : String) (summary : Json)
    (sourceLanguage targetLanguage now : String) : Except String String :=
  match summary with
  | .null => .error "TypeError: Cannot read properties of null"
  | sv =>
    match guardedListSection "## Participants" (jsField sv "participants") with
    | .error e => .error e
    | .ok pSec =>
      match numberedSection "## Action Items" (jsField sv "actionItems") with
      | .error e => .error e
      | .ok aSec =>
        match bulletedSection "## Key Points" (jsField sv "keyPoints") with
        | .error e => .error e
        | .ok kSec =>
          match guardedListSection "## Decisions Made" (jsField sv "decisions") with
          | .error e => .error e
          | .ok dSec =>
            Except.ok (joinNl
              (["# Meeting Summary", "",
                "**Languages:** " ++ jsToUpper sourceLanguage
                  ++ " â†’ " ++ jsToUpper targetLanguage,
                "**Generated:** " ++ now, "",
                "## Overview", jsJoinRender (jsField sv "summary"), ""]
                ++ pSec ++ aSec ++ kSec ++ dSec
                ++ exportTailSections originalContent translatedContent))

/-! ## Router procedures (src/server/routers.ts) -/

/-- RemoteCalls tallies the observable effects of one translate or
export call: remote translate calls, remote summarize calls, and rows
inserted into the store. -/
structure RemoteCalls where
  translateCalls : Nat
  summarizeCalls : Nat
  inserts : Nat

/-- ImgCalls tallies the observable external effects of one
createFromImage call: blob-store uploads and OCR calls. -/
structure ImgCalls where
  storagePuts : Nat
  ocrCalls : Nat

/-- sourceHint is the source-language hint passed to the translation
capability: `meeting.detectedLanguage || undefined`, so both a NULL
column and an empty string yield no hint. -/
def sourceHint (m : Meeting) : Option String :=
  match m.detectedLanguage with
  | some l => if l = "" then none else some l
  | none => none

/-- createOp is the meetings.create mutation: zod requires a non-empty
title and content, the language of the content is detected, and a new
meeting row is persisted with the detected language.  A detection
failure propagates and nothing is persisted. -/
def createOp (P : Providers) (s : DbState) (userId : Nat) (title content : String) :
    Except String (Nat × String) × DbState :=
  if title = "" || content = "" then (.error "Invalid input", s)
  else
    match detectMeetingLanguage P content with
    | .error e => (.error e, s)
    | .ok detectedLanguage =>
        let (meetingId, s2) := createMeeting s
          { userId, title
            originalContent := content
            detectedLanguage := some detectedLanguage
            imageUrl := none, imageKey := none }
        (.ok (meetingId, detectedLanguage), s2)

/-- splitCharAux splits a character list at every slash, keeping empty
segments, as String.prototype.split("/") does. -/
def splitCharAux : List Char → List Char → List (List Char)
  | [], acc => [acc.reverse]
  | c :: cs, acc =>
      if c = '/' then acc.reverse :: splitCharAux cs []
      else splitCharAux cs (c :: acc)

/-- splitSlash models String.prototype.split("/"). -/
def splitSlash (s : String) : List String :=
  (splitCharAux s.data []).map (fun cs => ⟨cs⟩)

/-- fileExtensionOf is `mimeType.split("/")[1] || "jpg"`. -/
def fileExtensionOf (mimeType : String) : String :=
  match (splitSlash mimeType).get? 1 with
  | some e => if e = "" then "jpg" else e
  | none => "jpg"

/-- imageFileKey is the blob-store key
`meetings/userId/nanoid.extension` built by createFromImage. -/
def imageFileKey (userId : Nat) (mimeType : String) (token : String) : String :=
  "meetings/" ++ toString userId ++ "/" ++ token ++ "." ++ fileExtensionOf mimeType

/-- CreateFromImageResult is the response shape of the
meetings.createFromImage mutation. -/
structure CreateFromImageResult where
  id : Nat
  detectedLanguage : Option String
  extractedText : Json
  imageUrl : String

/-- createFromImageOp is the meetings.createFromImage mutation:
validation fails fast with no external call, then the image is uploaded,
OCR is invoked on the resulting url, an empty extraction is a terminal
error with nothing persisted, and otherwise a meeting row is persisted
with the extracted text as its original content.  The base64 image
payload is opaque to the workflow and not modelled. -/
def createFromImageOp (P : Providers) (s : DbState) (userId : Nat)
    (title imageData mimeType : String) (fileSize : Int) :
    Except String CreateFromImageResult × DbState × ImgCalls :=
  if title = "" then (.error "Invalid input", s, ⟨0, 0⟩)
  else
    match validateImageForOCR fileSize mimeType with
    | some e => (.error (imgErrorMessage e), s, ⟨0, 0⟩)
    | none =>
      let fileKey := imageFileKey userId mimeType P.nanoid
      match P.storagePut fileKey mimeType with
      | .error e => (.error e, s, ⟨1, 0⟩)
      | .ok imageUrl =>
        match extractAndDetectLanguage P imageUrl with
        | .error e => (.error e, s, ⟨1, 1⟩)
        | .ok ocrResult =>
          if !(jsTruthy ocrResult.extractedText) then
            (.error "No text could be extracted from the image", s, ⟨1, 1⟩)
          else
            let (meetingId, s2) := createMeeting s
              { userId, title
                originalContent := jsCoerceString ocrResult.extractedText
                detectedLanguage := ocrResult.detectedLanguage
                imageUrl := some imageUrl
                imageKey := some fileKey }
            (.ok { id := meetingId
                   detectedLanguage := ocrResult.detectedLanguage
                   extractedText := ocrResult.extractedText
                   imageUrl := imageUrl }, s2, ⟨1, 1⟩)

/-- translateOp is the meetings.translate mutation: an existing cached
translation is returned as is; on a miss the meeting is loaded, the
content is translated, the translated text is summarized, and one new
translation row is persisted and returned. -/
def translateOp (P : Providers) (s : DbState) (meetingId : Nat) (targetLanguage : String) :
    Except String Translation × DbState × RemoteCalls :=
  match getTranslation s meetingId targetLanguage with
  | some existing => (.ok existing, s, ⟨0, 0, 0⟩)
  | none =>
    match getMeetingById s meetingId with
    | none => (.error "Meeting not found", s, ⟨0, 0, 0⟩)
    | some meeting =>
      match translateMeetingNotes P meeting.originalContent targetLanguage (sourceHint meeting) with
      | .error e => (.error e, s, ⟨1, 0, 0⟩)
      | .ok translatedContent =>
        match summarizeMeetingNotes P translatedContent with
        | .error e => (.error e, s, ⟨1, 1, 0⟩)
        | .ok summary =>
          let (row, s2) := createTranslation s
            { meetingId, targetLanguage, translatedContent
              summary := summary.summary
              actionItems := some (jsonOfSummary summary) }
          (.ok row, s2, ⟨1, 1, 1⟩)

/-- exportOp is the meetings.export query: it loads the meeting and the
cached translation for the pair (failing when either is absent),
deserializes the stored structured summary (`JSON.parse(actionItems ||
"{}")`, modelled as the stored Json value with an empty-object default
for a NULL column) and renders the document.  The query performs no
remote call and no write: the state is returned unchanged with a zero
tally. -/
def exportOp (s : DbState) (meetingId : Nat) (targetLanguage : String) (now : String) :
    Except String String × DbState × RemoteCalls :=
  match getMeetingById s meetingId with
  | none => (.error "Meeting not found", s, ⟨0, 0, 0⟩)
  | some meeting =>
    match getTranslation s meetingId targetLanguage with
    | none => (.error "Translation not found", s, ⟨0, 0, 0⟩)
    | some translation =>
      let summary :=
        match translation.actionItems with
        | some j => j
        | none => Json.obj []
      (formatSummaryForExport meeting.originalContent translation.translatedContent summary
        (match meeting.detectedLanguage with
         | some l => if l = "" then "unknown" else l
         | none => "unknown")
        targetLanguage now, s, ⟨0, 0, 0⟩)

/-- runTranslations folds a sequence of translate calls (any meeting
ids and target languages, hits, misses or failures) over the store. -/
def runTranslations (P : Providers) : DbState → List (Nat × String) → DbState
  | s, [] => s
  | s, (meetingId, targetLanguage) :: rest =>
      runTranslations P (translateOp P s meetingId targetLanguage).2.1 rest

/-! ## Invariants -/

/-- UniqueKeys states the cache-key invariant: no two persisted
translation rows share the same (meetingId, targetLanguage) pair. -/
def UniqueKeys (s : DbState) : Prop :=
  s.translations.Pairwise
    (fun a b => ¬(a.meetingId = b.meetingId ∧ a.targetLanguage = b.targetLanguage))

/-- StateWF characterises the reachable stores the workflow produces:
every translation row stores the serialization of a structured summary
in its actionItems column, and references an existing meeting (the
foreign key). -/
def StateWF (s : DbState) : Prop :=
  ∀ t ∈ s.translations,
    (∃ ms : MeetingSummary, t.actionItems = some (jsonOfSummary ms)) ∧
    ∃ m ∈ s.meetings, m.id = t.meetingId

/-! ## Concrete fixtures used by witnesses and counterexamples -/

/-- sampleMeeting is a stored meeting with detected language "en". -/
def sampleMeeting : Meeting :=
  { id := 1, userId := 1, title := "Standup"
    originalContent := "hello world"
    detectedLanguage := some "en"
    imageUrl := none, imageKey := none }

/-- sampleState is a store holding one meeting and no cached
translation. -/
def sampleState : DbState :=
  { meetings := [sampleMeeting], translations := []
    nextMeetingId := 2, nextTranslationId := 1 }

/-- sampleProviders is a provider oracle whose summarize response is
the empty JSON object. -/
def sampleProviders : Providers :=
  { translateText := fun _ _ _ => .ok "hola mundo"
    detectText := fun _ => .ok "en"
    summarizeText := fun _ => .ok (.parsed "{}" (.obj []))
    ocrText := fun _ => .ok (.unparsed "")
    storagePut := fun _ _ => .ok "https://bucket/img"
    nanoid := "tok123" }

/-- sampleSummary is the structured summary summarizeMeetingNotes
builds from the empty-object response of sampleProviders. -/
def sampleSummary : MeetingSummary :=
  { summary := .str "No summary available"
    actionItems := [], keyPoints := []
    participants := none, decisions := none }

/-- sampleRow is the translation row the first translate call against
sampleState persists. -/
def sampleRow : Translation :=
  { id := 1, meetingId := 1, targetLanguage := "es"
    translatedContent := "hola mundo"
    summary := .str "No summary available"
    actionItems := some (jsonOfSummary sampleSummary) }

/-- sampleState1 is sampleState after that first translate call. -/
def sampleState1 : DbState :=
  { meetings := [sampleMeeting], translations := [sampleRow]
    nextMeetingId := 2, nextTranslationId := 2 }

/-- emptyState is the store with no rows at all. -/
def emptyState : DbState :=
  { meetings := [], translations := []
    nextMeetingId := 1, nextTranslationId := 1 }

/-- failDetectProviders is a provider oracle whose language detection
call throws. -/
def failDetectProviders : Providers :=
  { translateText := fun _ _ _ => .ok "hola"
    detectText := fun _ => .error "detect failed"
    summarizeText := fun _ => .ok (.unparsed "s")
    ocrText := fun _ => .ok (.unparsed "")
    storagePut := fun _ _ => .ok "https://bucket/img"
    nanoid := "tok123" }

/-- numSummaryProviders is a provider oracle whose summarize response
is valid JSON carrying a numeric (non-string) summary field. -/
def numSummaryProviders : Providers :=
  { translateText := fun _ _ _ => .ok "hola mundo"
    detectText := fun _ => .ok "en"
    summarizeText := fun _ =>
      .ok (.parsed "\x7b\"summary\":42\x7d" (.obj [("summary", .num 42)]))
    ocrText := fun _ => .ok (.unparsed "")
    storagePut := fun _ _ => .ok "https://bucket/img"
    nanoid := "tok123" }

/-- c10StoredSummaryField reads back the "summary" member of the
structured-summary object that the first translate call against
sampleState stores in the actionItems column under
numSummaryProviders. -/
def c10StoredSummaryField : Option Json :=
  ((translateOp numSummaryProviders sampleState 1 "es").2.1.translations.head?.bind
      (fun t => t.actionItems)).bind
    (fun j => jsField j "summary")

/-- fallbackProviders is a provider oracle whose summarize response is
text that JSON.parse rejects. -/
def fallbackProviders : Providers :=
  { translateText := fun _ _ _ => .ok "hola mundo"
    detectText := fun _ => .ok "en"
    summarizeText := fun _ => .ok (.unparsed "not json")
    ocrText := fun _ => .ok (.unparsed "")
    storagePut := fun _ _ => .ok "https://bucket/img"
    nanoid := "tok123" }

end TeamSync

namespace TeamSync

/-! ## Helper lemmas -/

/-- find?_append_of_none: when a whole list rejects the predicate, the
first match in the extended list is the appended element. -/
theorem find?_append_of_none {α : Type} (p : α → Bool) (l : List α) (x : α)
    (h : l.find? p = none) (hx : p x = true) : (l ++ [x]).find? p = some x := by
  rw [List.find?_append, h]
  simp [List.find?, hx]

/-- getTranslation_insert: inserting a row for a pair that had no cached
row makes it the lookup result for that pair. -/
theorem getTranslation_insert (s : DbState) (row : Translation) (n : Nat)
    (M : Nat) (L : String)
    (hnone : getTranslation s M L = none)
    (hM : row.meetingId = M) (hL : row.targetLanguage = L) :
    getTranslation
      { s with translations := s.translations ++ [row], nextTranslationId := n } M L
      = some row := by
  unfold getTranslation at hnone ⊢
  exact find?_append_of_none _ _ _ hnone (by simp [hM, hL])

/-- translateOp_miss_shape: on a cache miss with both remote calls
succeeding, translate persists exactly the row built from the remote
results and returns it. -/
theorem translateOp_miss_shape (P : Providers) (s : DbState) (M : Nat) (L : String)
    (meeting : Meeting) (tc : String) (ms : MeetingSummary)
    (h0 : getTranslation s M L = none)
    (h1 : getMeetingById s M = some meeting)
    (h2 : translateMeetingNotes P meeting.originalContent L (sourceHint meeting) = .ok tc)
    (h3 : summarizeMeetingNotes P tc = .ok ms) :
    translateOp P s M L =
      (.ok { id := s.nextTranslationId, meetingId := M, targetLanguage := L
             translatedContent := tc, summary := ms.summary
             actionItems := some (jsonOfSummary ms) },
       { s with
         translations := s.translations ++
           [{ id := s.nextTranslationId, meetingId := M, targetLanguage := L
              translatedContent := tc, summary := ms.summary
              actionItems := some (jsonOfSummary ms) }]
         nextTranslationId := s.nextTranslationId + 1 },
       ⟨1, 1, 1⟩) := by
  simp only [translateOp, h0, h1, h2, h3, createTranslation]

/-- translateOp_state_cases: the state after a translate call is either
unchanged or extended by exactly one row keyed by the requested pair,
the latter only on a cache miss. -/
theorem translateOp_state_cases (P : Providers) (s : DbState) (M : Nat) (L : String) :
    (translateOp P s M L).2.1 = s ∨
      ∃ row, (translateOp P s M L).2.1.translations = s.translations ++ [row] ∧
        row.meetingId = M ∧ row.targetLanguage = L ∧ getTranslation s M L = none := by
  cases h0 : getTranslation s M L with
  | some existing => left; simp only [translateOp, h0]
  | none =>
    cases h1 : getMeetingById s M with
    | none => left; simp only [translateOp, h0, h1]
    | some meeting =>
      cases h2 : translateMeetingNotes P meeting.originalContent L (sourceHint meeting) with
      | error e => left; simp only [translateOp, h0, h1, h2]
      | ok tc =>
        cases h3 : summarizeMeetingNotes P tc with
        | error e => left; simp only [translateOp, h0, h1, h2, h3]
        | ok ms =>
          refine Or.inr ⟨{ id := s.nextTranslationId, meetingId := M, targetLanguage := L
                           translatedContent := tc, summary := ms.summary
                           actionItems := some (jsonOfSummary ms) }, ?_, rfl, rfl, rfl⟩
          simp only [translateOp, h0, h1, h2, h3, createTranslation]

/-- translateOp_meetings_frame: a single translate call never touches
the meetings table. -/
theorem translateOp_meetings_frame (P : Providers) (s : DbState) (M : Nat) (L : String) :
    (translateOp P s M L).2.1.meetings = s.meetings := by
  cases h0 : getTranslation s M L with
  | some existing => simp only [translateOp, h0]
  | none =>
    cases h1 : getMeetingById s M with
    | none => simp only [translateOp, h0, h1]
    | some meeting =>
      cases h2 : translateMeetingNotes P meeting.originalContent L (sourceHint meeting) with
      | error e => simp only [translateOp, h0, h1, h2]
      | ok tc =>
        cases h3 : summarizeMeetingNotes P tc with
        | error e => simp only [translateOp, h0, h1, h2, h3]
        | ok ms => simp only [translateOp, h0, h1, h2, h3, createTranslation]

/-- joinNl_append: joining two nonempty section lists inserts exactly
one newline between their renderings. -/
theorem joinNl_append (l₁ l₂ : List String) (h₁ : l₁ ≠ []) (h₂ : l₂ ≠ []) :
    joinNl (l₁ ++ l₂) = joinNl l₁ ++ "\n" ++ joinNl l₂ := by
  induction l₁ with
  | nil => exact absurd rfl h₁
  | cons y ys ih =>
    cases ys with
    | nil =>
      cases l₂ with
      | nil => exact absurd rfl h₂
      | cons z zs => rfl
    | cons z zs =>
      show joinNl (y :: ((z :: zs) ++ l₂)) = joinNl (y :: z :: zs) ++ "\n" ++ joinNl l₂
      rw [show joinNl (y :: ((z :: zs) ++ l₂))
            = y ++ "\n" ++ joinNl ((z :: zs) ++ l₂) from rfl,
          ih (List.cons_ne_nil z zs),
          show joinNl (y :: z :: zs) = y ++ "\n" ++ joinNl (z :: zs) from rfl]
      simp [String.append_assoc]

/-- joinNl_head_mid_tail: a sections array with a fixed head and a
fixed nonempty tail renders as head, newline, middle, newline, tail. -/
theorem joinNl_head_mid_tail (x : String) (mid tl : List String)
    (hm : mid ≠ []) (ht : tl ≠ []) :
    joinNl (x :: mid ++ tl) = x ++ "\n" ++ joinNl mid ++ "\n" ++ joinNl tl := by
  have hmt : mid ++ tl ≠ [] := by
    cases mid with
    | nil => exact absurd rfl hm
    | cons a as => simp
  have hstep : joinNl (x :: (mid ++ tl)) = x ++ "\n" ++ joinNl (mid ++ tl) := by
    cases hmid : mid ++ tl with
    | nil => exact absurd hmid hmt
    | cons a as => rfl
  rw [show x :: mid ++ tl = x :: (mid ++ tl) from rfl, hstep,
      joinNl_append mid tl hm ht]
  simp [String.append_assoc]

/-- summaryFields_summary: the serialized summary object carries the
summary value under the "summary" key. -/
theorem summaryFields_summary (ms : MeetingSummary) :
    jsField (Json.obj (summaryFields ms)) "summary" = some ms.summary := by
  cases hp : ms.participants <;> cases hd : ms.decisions <;>
    simp [summaryFields, jsField, hp, hd]

/-- summaryFields_actionItems: the serialized summary object carries
the action items array under the "actionItems" key. -/
theorem summaryFields_actionItems (ms : MeetingSummary) :
    jsField (Json.obj (summaryFields ms)) "actionItems" = some (.arr ms.actionItems) := by
  cases hp : ms.participants <;> cases hd : ms.decisions <;>
    simp [summaryFields, jsField, hp, hd]

/-- summaryFields_keyPoints: the serialized summary object carries the
key points array under the "keyPoints" key. -/
theorem summaryFields_keyPoints (ms : MeetingSummary) :
    jsField (Json.obj (summaryFields ms)) "keyPoints" = some (.arr ms.keyPoints) := by
  cases hp : ms.participants <;> cases hd : ms.decisions <;>
    simp [summaryFields, jsField, hp, hd]

/-- summaryFields_participants: the serialized summary object carries
the participants array exactly when the summary has one. -/
theorem summaryFields_participants (ms : MeetingSummary) :
    jsField (Json.obj (summaryFields ms)) "participants"
      = ms.participants.map (fun l => Json.arr l) := by
  cases hp : ms.participants <;> cases hd : ms.decisions <;>
    simp [summaryFields, jsField, hp, hd]

/-- summaryFields_decisions: the serialized summary object carries the
decisions array exactly when the summary has one. -/
theorem summaryFields_decisions (ms : MeetingSummary) :
    jsField (Json.obj (summaryFields ms)) "decisions"
      = ms.decisions.map (fun l => Json.arr l) := by
  cases hp : ms.participants <;> cases hd : ms.decisions <;>
    simp [summaryFields, jsField, hp, hd]

/-- guardedListSection_ok: on an undefined value or an array value the
guarded section never throws. -/
theorem guardedListSection_ok (heading : String) (v : Option Json)
    (hv : v = none ∨ ∃ l, v = some (.arr l)) :
    ∃ a, guardedListSection heading v = .ok a := by
  rcases hv with rfl | ⟨l, rfl⟩
  · exact ⟨[], rfl⟩
  · cases hc : jsTruthy (Json.arr l) && jsGtZero (jsLengthProp (Json.arr l)) with
    | true =>
        exact ⟨heading :: l.map (fun p => "- " ++ jsCoerceString p) ++ [""],
          by simp [guardedListSection, hc]⟩
    | false => exact ⟨[], by simp [guardedListSection, hc]⟩

/-- numberedSection_ok: on an array value the numbered section never
throws. -/
theorem numberedSection_ok (heading : String) (l : List Json) :
    ∃ a, numberedSection heading (some (.arr l)) = .ok a := by
  cases hc : jsGtZero (jsLengthProp (Json.arr l)) with
  | true =>
      exact ⟨heading :: l.enum.map (fun p => toString (p.1 + 1) ++ ". " ++ jsCoerceString p.2)
          ++ [""],
        by simp [numberedSection, lengthPropRead, hc]⟩
  | false => exact ⟨[], by simp [numberedSection, lengthPropRead, hc]⟩

/-- bulletedSection_ok: on an array value the bulleted section never
throws. -/
theorem bulletedSection_ok (heading : String) (l : List Json) :
    ∃ a, bulletedSection heading (some (.arr l)) = .ok a := by
  cases hc : jsGtZero (jsLengthProp (Json.arr l)) with
  | true =>
      exact ⟨heading :: l.map (fun p => "- " ++ jsCoerceString p) ++ [""],
        by simp [bulletedSection, lengthPropRead, hc]⟩
  | false => exact ⟨[], by simp [bulletedSection, lengthPropRead, hc]⟩

/-- format_on_summary_ok: rendering any serialized structured summary
cannot throw, and the document it produces starts with the
"# Meeting Summary" heading and ends with the fixed tail: the fenced
original content followed by the fenced translated content. -/
theorem format_on_summary_ok (ms : MeetingSummary) (orig trans src tgt now : String) :
    ∃ mid, formatSummaryForExport orig trans (jsonOfSummary ms) src tgt now =
      .ok ("# Meeting Summary" ++ "\n" ++ mid ++ "\n" ++ exportTail orig trans) := by
  obtain ⟨pa, hpa⟩ := guardedListSection_ok "## Participants"
    (jsField (Json.obj (summaryFields ms)) "participants")
    (by rw [summaryFields_participants]
        cases ms.participants with
        | none => exact Or.inl rfl
        | some l => exact Or.inr ⟨l, rfl⟩)
  obtain ⟨aa, haa⟩ : ∃ a, numberedSection "## Action Items"
      (jsField (Json.obj (summaryFields ms)) "actionItems") = .ok a := by
    rw [summaryFields_actionItems]
    exact numberedSection_ok _ _
  obtain ⟨ka, hka⟩ : ∃ a, bulletedSection "## Key Points"
      (jsField (Json.obj (summaryFields ms)) "keyPoints") = .ok a := by
    rw [summaryFields_keyPoints]
    exact bulletedSection_ok _ _
  obtain ⟨da, hda⟩ := guardedListSection_ok "## Decisions Made"
    (jsField (Json.obj (summaryFields ms)) "decisions")
    (by rw [summaryFields_decisions]
        cases ms.decisions with
        | none => exact Or.inl rfl
        | some l => exact Or.inr ⟨l, rfl⟩)
  refine ⟨joinNl (["", "**Languages:** " ++ jsToUpper src ++ " â†’ " ++ jsToUpper tgt,
                   "**Generated:** " ++ now, "",
                   "## Overview",
                   jsJoinRender (jsField (Json.obj (summaryFields ms)) "summary"), ""]
                  ++ pa ++ aa ++ ka ++ da), ?_⟩
  have hbody : formatSummaryForExport orig trans (jsonOfSummary ms) src tgt now =
      .ok (joinNl (("# Meeting Summary"
        :: ["", "**Languages:** " ++ jsToUpper src ++ " â†’ " ++ jsToUpper tgt,
            "**Generated:** " ++ now, "",
            "## Overview",
            jsJoinRender (jsField (Json.obj (summaryFields ms)) "summary"), ""]
        ++ pa ++ aa ++ ka ++ da)
        ++ exportTailSections orig trans)) := by
    simp only [formatSummaryForExport, jsonOfSummary, hpa, haa, hka, hda]
  rw [hbody]
  rw [show ("# Meeting Summary"
        :: ["", "**Languages:** " ++ jsToUpper src ++ " â†’ " ++ jsToUpper tgt,
            "**Generated:** " ++ now, "",
            "## Overview",
            jsJoinRender (jsField (Json.obj (summaryFields ms)) "summary"), ""]
        ++ pa ++ aa ++ ka ++ da)
      = "# Meeting Summary"
        :: (["", "**Languages:** " ++ jsToUpper src ++ " â†’ " ++ jsToUpper tgt,
             "**Generated:** " ++ now, "",
             "## Overview",
             jsJoinRender (jsField (Json.obj (summaryFields ms)) "summary"), ""]
            ++ pa ++ aa ++ ka ++ da) from rfl]
  rw [joinNl_head_mid_tail _ _ _ (by simp) (by simp [exportTailSections])]
  rfl

/-! ## Claim theorems -/

/-- C1: calling translate(M, L) a second time returns the very same
Translation value (same identity and content) that the first successful
call returned, with the state unchanged and a zero effect tally — no
remote translate call, no remote summarize call, no insert: a pure
cache hit. -/
theorem translate_second_call_pure_hit
    (P : Providers) (s : DbState) (M : Nat) (L : String)
    (t : Translation) (s1 : DbState) (c1 : RemoteCalls)
    (h : translateOp P s M L = (.ok t, s1, c1)) :
    translateOp P s1 M L = (.ok t, s1, ⟨0, 0, 0⟩) := by
  cases h0 : getTranslation s M L with
  | some existing =>
    have hE : translateOp P s M L = (.ok existing, s, ⟨0, 0, 0⟩) := by
      simp only [translateOp, h0]
    rw [hE] at h
    simp only [Prod.mk.injEq, Except.ok.injEq] at h
    obtain ⟨hte, hse, -⟩ := h
    subst hte
    subst hse
    simp only [translateOp, h0]
  | none =>
    cases h1 : getMeetingById s M with
    | none =>
      have hE : translateOp P s M L = (.error "Meeting not found", s, ⟨0, 0, 0⟩) := by
        simp only [translateOp, h0, h1]
      rw [hE] at h
      simp at h
    | some meeting =>
      cases h2 : translateMeetingNotes P meeting.originalContent L (sourceHint meeting) with
      | error e =>
        have hE : translateOp P s M L = (.error e, s, ⟨1, 0, 0⟩) := by
          simp only [translateOp, h0, h1, h2]
        rw [hE] at h
        simp at h
      | ok tc =>
        cases h3 : summarizeMeetingNotes P tc with
        | error e =>
          have hE : translateOp P s M L = (.error e, s, ⟨1, 1, 0⟩) := by
            simp only [translateOp, h0, h1, h2, h3]
          rw [hE] at h
          simp at h
        | ok ms =>
          rw [translateOp_miss_shape P s M L meeting tc ms h0 h1 h2 h3] at h
          simp only [Prod.mk.injEq, Except.ok.injEq] at h
          obtain ⟨hte, hse, -⟩ := h
          subst hte
          subst hse
          have hg := getTranslation_insert s
            { id := s.nextTranslationId, meetingId := M, targetLanguage := L
              translatedContent := tc, summary := ms.summary
              actionItems := some (jsonOfSummary ms) }
            (s.nextTranslationId + 1) M L h0 rfl rfl
          simp only [translateOp, hg]

/-- C1 witness: against the concrete one-meeting store, the first
translate call persists sampleRow and the second call returns it
untouched with a zero tally. -/
theorem translate_second_call_pure_hit_witness :
    translateOp sampleProviders sampleState1 1 "es" = (.ok sampleRow, sampleState1, ⟨0, 0, 0⟩) :=
  translate_second_call_pure_hit sampleProviders sampleState 1 "es"
    sampleRow sampleState1 ⟨1, 1, 1⟩ (by rfl)

/-- C2: translate preserves the cache-key uniqueness invariant: from a
store with no duplicate (meetingId, targetLanguage) pair, the call
either leaves the store unchanged (hit or failure) or appends exactly
one row keyed by the requested pair, and the result again has no
duplicates — never a duplicate insert, never an overwrite. -/
theorem translate_enforces_cache_key_uniqueness
    (P : Providers) (s : DbState) (M : Nat) (L : String) (h : UniqueKeys s) :
    UniqueKeys (translateOp P s M L).2.1 ∧
      ((translateOp P s M L).2.1 = s ∨
        ∃ row, (translateOp P s M L).2.1.translations = s.translations ++ [row] ∧
          row.meetingId = M ∧ row.targetLanguage = L) := by
  rcases translateOp_state_cases P s M L with hcase | ⟨row, hrow, hM, hL, hnone⟩
  · rw [hcase]
    exact ⟨h, Or.inl rfl⟩
  · refine ⟨?_, Or.inr ⟨row, hrow, hM, hL⟩⟩
    unfold UniqueKeys at h ⊢
    rw [hrow]
    refine List.pairwise_append.mpr ⟨h, by simp, ?_⟩
    intro a ha b hb
    simp only [List.mem_singleton] at hb
    subst hb
    unfold getTranslation at hnone
    have hrej := List.find?_eq_none.mp hnone a ha
    intro hcontra
    apply hrej
    simp [hcontra.1, hcontra.2, hM, hL]

/-- C2 witness: instantiated at the concrete one-meeting store with an
empty translations table. -/
theorem translate_enforces_cache_key_uniqueness_witness :
    UniqueKeys (translateOp sampleProviders sampleState 1 "es").2.1 ∧
      ((translateOp sampleProviders sampleState 1 "es").2.1 = sampleState ∨
        ∃ row, (translateOp sampleProviders sampleState 1 "es").2.1.translations
            = sampleState.translations ++ [row] ∧
          row.meetingId = 1 ∧ row.targetLanguage = "es") :=
  translate_enforces_cache_key_uniqueness sampleProviders sampleState 1 "es" List.Pairwise.nil

/-- C3: any sequence of translate calls — any meeting ids, any target
languages, cache hits, misses or failures — leaves the meetings table,
and hence every field of every Meeting including originalContent,
exactly as it was: translate only reads Meetings and only writes
Translations. -/
theorem translate_never_mutates_meetings (P : Providers) (s : DbState)
    (calls : List (Nat × String)) :
    (runTranslations P s calls).meetings = s.meetings := by
  induction calls generalizing s with
  | nil => rfl
  | cons c rest ih =>
    cases c with
    | mk M L =>
      simp only [runTranslations]
      rw [ih, translateOp_meetings_frame]

/-- C9: deleting a meeting removes every Translation whose meetingId
references it (the schema cascade), so no surviving row references the
meeting and getTranslation for the deleted meeting answers absent for
every target language. -/
theorem delete_meeting_cascades (s : DbState) (M : Nat) :
    (∀ L, getTranslation (deleteMeeting s M) M L = none) ∧
      ∀ t ∈ (deleteMeeting s M).translations, t.meetingId ≠ M := by
  constructor
  · intro L
    unfold getTranslation deleteMeeting
    apply List.find?_eq_none.mpr
    intro t ht
    simp only [List.mem_filter, bne_iff_ne, ne_eq] at ht
    simp only [Bool.and_eq_true, beq_iff_eq, not_and]
    exact fun hM _ => ht.2 hM
  · intro t ht
    simp only [deleteMeeting, List.mem_filter, bne_iff_ne, ne_eq] at ht
    exact ht.2

/-- C4 counterexample: with a provider whose detect-language call
throws, create-from-text (non-empty title and content) propagates the
error and persists nothing — the store has no Meeting at all, so no
Meeting with null detectedLanguage was created, contrary to the
claim. -/
theorem create_detection_failure_cex :
    (createOp failDetectProviders emptyState 1 "Standup" "hello").1 = .error "detect failed" ∧
      (createOp failDetectProviders emptyState 1 "Standup" "hello").2.meetings = [] :=
  ⟨rfl, rfl⟩

/-- C4 (amended): create-from-text with non-empty title and content
invokes detect-language on the content; on success it persists exactly
one new Meeting whose detectedLanguage is the detection result, and on
detection failure the error propagates and no Meeting is persisted
(the store is unchanged). -/
theorem create_detection_failure_aborts
    (P : Providers) (s : DbState) (userId : Nat) (title content : String)
    (ht : title ≠ "") (hc : content ≠ "") :
    (∀ e, detectMeetingLanguage P content = .error e →
        createOp P s userId title content = (.error e, s)) ∧
    (∀ lang, detectMeetingLanguage P content = .ok lang →
        createOp P s userId title content =
          (.ok (s.nextMeetingId, lang),
           { s with
             meetings := s.meetings ++
               [{ id := s.nextMeetingId, userId := userId, title := title
                  originalContent := content, detectedLanguage := some lang
                  imageUrl := none, imageKey := none }]
             nextMeetingId := s.nextMeetingId + 1 })) := by
  constructor
  · intro e he
    simp [createOp, ht, hc, he]
  · intro lang hl
    simp [createOp, createMeeting, ht, hc, hl]

/-- C4 witness: at the concrete inputs, the failing oracle aborts with
the empty store unchanged, and the succeeding oracle persists the
meeting with the detected language. -/
theorem create_detection_failure_aborts_witness :
    createOp failDetectProviders emptyState 1 "Standup" "hello" =
      (.error "detect failed", emptyState) ∧
    createOp sampleProviders emptyState 1 "Standup" "hello" =
      (.ok (1, "en"),
       { meetings := [{ id := 1, userId := 1, title := "Standup"
                        originalContent := "hello", detectedLanguage := some "en"
                        imageUrl := none, imageKey := none }]
         translations := [], nextMeetingId := 2, nextTranslationId := 1 }) :=
  ⟨(create_detection_failure_aborts failDetectProviders emptyState 1 "Standup" "hello"
      (by decide) (by decide)).1 "detect failed" (by rfl),
   (create_detection_failure_aborts sampleProviders emptyState 1 "Standup" "hello"
      (by decide) (by decide)).2 "en" (by rfl)⟩

/-- C6: image validation is fail-fast and exact at the boundary: a
declared size of exactly 16 MiB passes validation whenever the MIME
type is allowed; one byte (or more) over the limit is rejected with the
size error before any blob-store or OCR call (zero external tally); a
MIME type outside the allow-list is likewise rejected before any
external call. -/
theorem image_validation_boundary
    (P : Providers) (s : DbState) (userId : Nat)
    (title imageData mimeType : String) (fileSize : Int) (ht : title ≠ "") :
    (supportedImageFormats.contains (jsToLower mimeType) = true →
       validateImageForOCR imageSizeLimit mimeType = none) ∧
    (fileSize > imageSizeLimit →
       createFromImageOp P s userId title imageData mimeType fileSize =
         (.error (imgErrorMessage (.tooLarge fileSize)), s, ⟨0, 0⟩)) ∧
    (fileSize ≤ imageSizeLimit →
       supportedImageFormats.contains (jsToLower mimeType) = false →
       createFromImageOp P s userId title imageData mimeType fileSize =
         (.error (imgErrorMessage (.unsupportedFormat mimeType)), s, ⟨0, 0⟩)) := by
  refine ⟨fun hm => ?_, fun hs => ?_, fun hsle hm => ?_⟩
  · have hm2 : jsToLower mimeType ∈ supportedImageFormats := by simpa using hm
    simp [validateImageForOCR, hm2, lt_self_iff_false]
  · simp [createFromImageOp, validateImageForOCR, ht, hs]
  · have hm2 : ¬ jsToLower mimeType ∈ supportedImageFormats := by simpa using hm
    simp [createFromImageOp, validateImageForOCR, ht, hm2, not_lt.mpr hsle]

/-- C6 witness: a supported type at exactly 16 MiB validates; one byte
over is rejected with the size error and a zero external tally; an
unsupported type is rejected with the format error and a zero external
tally. -/
theorem image_validation_boundary_witness :
    validateImageForOCR imageSizeLimit "image/png" = none ∧
    createFromImageOp sampleProviders sampleState 1 "Scan" "data" "image/png"
        (imageSizeLimit + 1) =
      (.error (imgErrorMessage (.tooLarge (imageSizeLimit + 1))), sampleState, ⟨0, 0⟩) ∧
    createFromImageOp sampleProviders sampleState 1 "Scan" "data" "application/pdf" 10 =
      (.error (imgErrorMessage (.unsupportedFormat "application/pdf")), sampleState, ⟨0, 0⟩) :=
  ⟨(image_validation_boundary sampleProviders sampleState 1 "Scan" "data" "image/png" 0
      (by decide)).1 (by rfl),
   (image_validation_boundary sampleProviders sampleState 1 "Scan" "data" "image/png"
      (imageSizeLimit + 1) (by decide)).2.1 (by decide),
   (image_validation_boundary sampleProviders sampleState 1 "Scan" "data" "application/pdf" 10
      (by decide)).2.2 (by decide) (by rfl)⟩

/-- C7: when the OCR capability call succeeds but yields empty
extracted text, create-from-image fails with the no-text error and the
store is completely unchanged — no Meeting is persisted (the upload and
the OCR call had already happened, tally one each). -/
theorem empty_ocr_rejection
    (P : Providers) (s : DbState) (userId : Nat)
    (title imageData mimeType : String) (fileSize : Int) (url : String) (r : OCRResult)
    (ht : title ≠ "")
    (hv : validateImageForOCR fileSize mimeType = none)
    (hput : P.storagePut (imageFileKey userId mimeType P.nanoid) mimeType = .ok url)
    (hocr : extractAndDetectLanguage P url = .ok r)
    (hempty : jsTruthy r.extractedText = false) :
    createFromImageOp P s userId title imageData mimeType fileSize =
      (.error "No text could be extracted from the image", s, ⟨1, 1⟩) := by
  simp [createFromImageOp, ht, hv, hput, hocr, hempty]

/-- C7 witness: the concrete oracle extracts empty text, the call
errors and the one-meeting store is untouched. -/
theorem empty_ocr_rejection_witness :
    createFromImageOp sampleProviders sampleState 1 "Scan" "data" "image/png" 100 =
      (.error "No text could be extracted from the image", sampleState, ⟨1, 1⟩) :=
  empty_ocr_rejection sampleProviders sampleState 1 "Scan" "data" "image/png" 100
    "https://bucket/img" { extractedText := .str "", detectedLanguage := none }
    (by decide) (by rfl) (by rfl) (by rfl) (by rfl)

/-- C8: a summarization response text that JSON.parse rejects does not
fail summarizeMeetingNotes: the raw text becomes the summary with empty
actionItems and keyPoints (and absent participants and decisions), and
a translate call that reaches summarization with such a response still
succeeds, persisting one row whose summary column is that raw text. -/
theorem summarize_parse_failure_degrades
    (P : Providers) (raw : String) :
    (∀ content, P.summarizeText content = .ok (.unparsed raw) →
        summarizeMeetingNotes P content = .ok
          { summary := .str raw, actionItems := [], keyPoints := []
            participants := none, decisions := none }) ∧
    (∀ s M L meeting tc,
        getTranslation s M L = none →
        getMeetingById s M = some meeting →
        translateMeetingNotes P meeting.originalContent L (sourceHint meeting) = .ok tc →
        P.summarizeText tc = .ok (.unparsed raw) →
        ∃ row s2, translateOp P s M L = (.ok row, s2, ⟨1, 1, 1⟩) ∧
          row.summary = .str raw) := by
  have hfall : ∀ content, P.summarizeText content = .ok (.unparsed raw) →
      summarizeMeetingNotes P content = .ok
        { summary := .str raw, actionItems := [], keyPoints := []
          participants := none, decisions := none } := by
    intro content hresp
    simp only [summarizeMeetingNotes, hresp]
    rfl
  refine ⟨hfall, ?_⟩
  intro s M L meeting tc h0 h1 h2 h3
  exact ⟨_, _, translateOp_miss_shape P s M L meeting tc _ h0 h1 h2 (hfall tc h3), rfl⟩

/-- C8 witness: the concrete unparseable response "not json" degrades
to the fallback summary and the translate call against the one-meeting
store succeeds with it. -/
theorem summarize_parse_failure_degrades_witness :
    summarizeMeetingNotes fallbackProviders "x" = .ok
      { summary := .str "not json", actionItems := [], keyPoints := []
        participants := none, decisions := none } ∧
    ∃ row s2, translateOp fallbackProviders sampleState 1 "es" = (.ok row, s2, ⟨1, 1, 1⟩) ∧
      row.summary = .str "not json" :=
  ⟨(summarize_parse_failure_degrades fallbackProviders "not json").1 "x" (by rfl),
   (summarize_parse_failure_degrades fallbackProviders "not json").2
     sampleState 1 "es" sampleMeeting "hola mundo" (by rfl) (by rfl) (by rfl) (by rfl)⟩

/-- C5: export on a pair with no cached Translation (the meeting
itself existing) fails with the literal error "Translation not found",
leaving the state unchanged with a zero effect tally — no on-demand
translation; and once translate has succeeded for the pair (from a
well-formed store), export succeeds with a document that starts with
the "# Meeting Summary" heading and ends with the "## Original
Content" fenced block followed by the "## Translated Content" fenced
block, in that order. -/
theorem export_requires_cached_translation
    (P : Providers) (s : DbState) (M : Nat) (L : String) (now : String) :
    (∀ meeting, getMeetingById s M = some meeting → getTranslation s M L = none →
        exportOp s M L now = (.error "Translation not found", s, ⟨0, 0, 0⟩)) ∧
    (StateWF s → ∀ t s1 c1, translateOp P s M L = (.ok t, s1, c1) →
        ∃ meeting mid,
          getMeetingById s1 M = some meeting ∧
          exportOp s1 M L now =
            (.ok ("# Meeting Summary" ++ "\n" ++ mid ++ "\n" ++
                exportTail meeting.originalContent t.translatedContent),
             s1, ⟨0, 0, 0⟩)) := by
  constructor
  · intro meeting hmeet hnone
    simp [exportOp, hmeet, hnone]
  · intro hwf t s1 c1 h
    cases h0 : getTranslation s M L with
    | some t0 =>
      have hE : translateOp P s M L = (.ok t0, s, ⟨0, 0, 0⟩) := by
        simp only [translateOp, h0]
      rw [hE] at h
      simp only [Prod.mk.injEq, Except.ok.injEq] at h
      obtain ⟨rfl, rfl, -⟩ := h
      have h0f : s.translations.find?
          (fun tr => tr.meetingId == M && tr.targetLanguage == L) = some t0 := h0
      have hmem : t0 ∈ s.translations := List.mem_of_find?_eq_some h0f
      have hpred := List.find?_some h0f
      simp only [Bool.and_eq_true, beq_iff_eq] at hpred
      obtain ⟨⟨ms, hms⟩, m, hm_mem, hm_id⟩ := hwf t0 hmem
      have hsome : (s.meetings.find? (fun x => x.id == M)).isSome := by
        apply List.find?_isSome.mpr
        exact ⟨m, hm_mem, by simp [hm_id, hpred.1]⟩
      cases hfind : getMeetingById s M with
      | none =>
        rw [show getMeetingById s M
              = s.meetings.find? (fun x => x.id == M) from rfl] at hfind
        rw [hfind] at hsome
        simp at hsome
      | some m2 =>
        have hexp : exportOp s M L now =
            (formatSummaryForExport m2.originalContent t0.translatedContent
              (jsonOfSummary ms)
              (match m2.detectedLanguage with
               | some l => if l = "" then "unknown" else l
               | none => "unknown") L now, s, ⟨0, 0, 0⟩) := by
          simp only [exportOp, hfind, h0, hms]
        obtain ⟨mid, hfmt⟩ := format_on_summary_ok ms m2.originalContent t0.translatedContent
          (match m2.detectedLanguage with
           | some l => if l = "" then "unknown" else l
           | none => "unknown") L now
        exact ⟨m2, mid, rfl, by rw [hexp, hfmt]⟩
    | none =>
      cases h1 : getMeetingById s M with
      | none =>
        have hE : translateOp P s M L = (.error "Meeting not found", s, ⟨0, 0, 0⟩) := by
          simp only [translateOp, h0, h1]
        rw [hE] at h
        simp at h
      | some meeting =>
        cases h2 : translateMeetingNotes P meeting.originalContent L (sourceHint meeting) with
        | error e =>
          have hE : translateOp P s M L = (.error e, s, ⟨1, 0, 0⟩) := by
            simp only [translateOp, h0, h1, h2]
          rw [hE] at h
          simp at h
        | ok tc =>
          cases h3 : summarizeMeetingNotes P tc with
          | error e =>
            have hE : translateOp P s M L = (.error e, s, ⟨1, 1, 0⟩) := by
              simp only [translateOp, h0, h1, h2, h3]
            rw [hE] at h
            simp at h
          | ok ms =>
            rw [translateOp_miss_shape P s M L meeting tc ms h0 h1 h2 h3] at h
            simp only [Prod.mk.injEq, Except.ok.injEq] at h
            obtain ⟨rfl, rfl, -⟩ := h
            have hfind2 : getMeetingById
                { s with
                  translations := s.translations ++
                    [{ id := s.nextTranslationId, meetingId := M, targetLanguage := L
                       translatedContent := tc, summary := ms.summary
                       actionItems := some (jsonOfSummary ms) }]
                  nextTranslationId := s.nextTranslationId + 1 } M = some meeting := h1
            have hrow := getTranslation_insert s
              { id := s.nextTranslationId, meetingId := M, targetLanguage := L
                translatedContent := tc, summary := ms.summary
                actionItems := some (jsonOfSummary ms) }
              (s.nextTranslationId + 1) M L h0 rfl rfl
            have hexp : exportOp
                { s with
                  translations := s.translations ++
                    [{ id := s.nextTranslationId, meetingId := M, targetLanguage := L
                       translatedContent := tc, summary := ms.summary
                       actionItems := some (jsonOfSummary ms) }]
                  nextTranslationId := s.nextTranslationId + 1 } M L now =
                (formatSummaryForExport meeting.originalContent tc (jsonOfSummary ms)
                  (match meeting.detectedLanguage with
                   | some l => if l = "" then "unknown" else l
                   | none => "unknown") L now,
                 { s with
                   translations := s.translations ++
                     [{ id := s.nextTranslationId, meetingId := M, targetLanguage := L
                        translatedContent := tc, summary := ms.summary
                        actionItems := some (jsonOfSummary ms) }]
                   nextTranslationId := s.nextTranslationId + 1 }, ⟨0, 0, 0⟩) := by
              simp only [exportOp, hfind2, hrow]
            obtain ⟨mid, hfmt⟩ := format_on_summary_ok ms meeting.originalContent tc
              (match meeting.detectedLanguage with
               | some l => if l = "" then "unknown" else l
               | none => "unknown") L now
            exact ⟨meeting, mid, hfind2, by rw [hexp, hfmt]⟩

/-- C5 witness: against the concrete store, export without a cached
translation fails with "Translation not found" and after the translate
call it renders the document with the headings in order. -/
theorem export_requires_cached_translation_witness :
    exportOp sampleState 1 "es" "1/1/2025" =
      (.error "Translation not found", sampleState, ⟨0, 0, 0⟩) ∧
    ∃ meeting mid,
      getMeetingById sampleState1 1 = some meeting ∧
      exportOp sampleState1 1 "es" "1/1/2025" =
        (.ok ("# Meeting Summary" ++ "\n" ++ mid ++ "\n" ++
            exportTail meeting.originalContent sampleRow.translatedContent),
         sampleState1, ⟨0, 0, 0⟩) :=
  ⟨(export_requires_cached_translation sampleProviders sampleState 1 "es" "1/1/2025").1
      sampleMeeting (by rfl) (by rfl),
   (export_requires_cached_translation sampleProviders sampleState 1 "es" "1/1/2025").2
      (by intro tr htr; exact absurd htr (List.not_mem_nil tr))
      sampleRow sampleState1 ⟨1, 1, 1⟩ (by rfl)⟩

/-- C10 counterexample: the provider answers the summarization call
with the valid JSON text carrying a numeric summary member; the row the
translate call writes then stores an object whose "summary" field is
the number 42 — not a string — refuting the claim that the serialized
object always has a string summary field. -/
theorem translate_stored_summary_not_string_cex :
    c10StoredSummaryField = some (.num 42) ∧ isJsonString (.num 42) = false :=
  ⟨rfl, rfl⟩

/-- C10 (amended): every Translation row written by a translate cache
miss stores in its actionItems column the serialization of an object
whose actionItems and keyPoints fields are always arrays (the summary
field is the provider value when truthy, the default string otherwise,
and need not be a string); consequently the export formatter never
throws on such a row — its array accesses are well-defined and export
cannot crash on a row translate produced. -/
theorem translate_written_rows_export_safe
    (P : Providers) (s : DbState) (M : Nat) (L : String)
    (t : Translation) (s1 : DbState)
    (h : translateOp P s M L = (.ok t, s1, ⟨1, 1, 1⟩)) :
    ∃ ms : MeetingSummary,
      t.actionItems = some (jsonOfSummary ms) ∧
      jsField (jsonOfSummary ms) "actionItems" = some (.arr ms.actionItems) ∧
      jsField (jsonOfSummary ms) "keyPoints" = some (.arr ms.keyPoints) ∧
      ∀ orig trans src tgt now, ∃ doc,
        formatSummaryForExport orig trans (jsonOfSummary ms) src tgt now = .ok doc := by
  cases h0 : getTranslation s M L with
  | some t0 =>
    have hE : translateOp P s M L = (.ok t0, s, ⟨0, 0, 0⟩) := by
      simp only [translateOp, h0]
    rw [hE] at h
    simp at h
  | none =>
    cases h1 : getMeetingById s M with
    | none =>
      have hE : translateOp P s M L = (.error "Meeting not found", s, ⟨0, 0, 0⟩) := by
        simp only [translateOp, h0, h1]
      rw [hE] at h
      simp at h
    | some meeting =>
      cases h2 : translateMeetingNotes P meeting.originalContent L (sourceHint meeting) with
      | error e =>
        have hE : translateOp P s M L = (.error e, s, ⟨1, 0, 0⟩) := by
          simp only [translateOp, h0, h1, h2]
        rw [hE] at h
        simp at h
      | ok tc =>
        cases h3 : summarizeMeetingNotes P tc with
        | error e =>
          have hE : translateOp P s M L = (.error e, s, ⟨1, 1, 0⟩) := by
            simp only [translateOp, h0, h1, h2, h3]
          rw [hE] at h
          simp at h
        | ok ms =>
          rw [translateOp_miss_shape P s M L meeting tc ms h0 h1 h2 h3] at h
          simp only [Prod.mk.injEq, Except.ok.injEq] at h
          obtain ⟨rfl, rfl, -⟩ := h
          refine ⟨ms, rfl, summaryFields_actionItems ms, summaryFields_keyPoints ms, ?_⟩
          intro orig trans src tgt now
          obtain ⟨mid, hfmt⟩ := format_on_summary_ok ms orig trans src tgt now
          exact ⟨_, hfmt⟩

/-- C10 witness: instantiated at the concrete store and oracle of the
cache-miss run that produced sampleRow. -/
theorem translate_written_rows_export_safe_witness :
    ∃ ms : MeetingSummary,
      sampleRow.actionItems = some (jsonOfSummary ms) ∧
      jsField (jsonOfSummary ms) "actionItems" = some (.arr ms.actionItems) ∧
      jsField (jsonOfSummary ms) "keyPoints" = some (.arr ms.keyPoints) ∧
      ∀ orig trans src tgt now, ∃ doc,
        formatSummaryForExport orig trans (jsonOfSummary ms) src tgt now = .ok doc :=
  translate_written_rows_export_safe sampleProviders sampleState 1 "es"
    sampleRow sampleState1 (by rfl)

end TeamSync
